import Mathlib

/-!
Verification development for the `vad-detection` voice-interaction backend.

The Python sources under `backend/` are shallowly embedded below: pure text
and numeric processing becomes Lean functions over `List Char`, `ℚ` and `ℕ`;
calls into external engines (Whisper, llama.cpp, OpenAI, Hugging Face,
sklearn, the filesystem) enter the embedded functions as explicit parameters
(`Option`/`Except` values or scoring oracles), so that the repository's own
control flow is what the theorems are about.
-/

/-! ## Character and list utilities shared by several components

These model Python's `str` primitives used throughout the backend:
`str.strip`, `str.lower`, `str.split`, the `in` substring test, and
`str.split(sep)[-1]`. -/

/-- Python whitespace characters (`' '`, `\t`, `\n`, `\r`, `\v`, `\f`),
the set used by `str.strip()` and `str.split()` on the ASCII inputs the
backend handles. -/
def isSpaceChar (c : Char) : Bool :=
  c == ' ' || c == '\t' || c == '\n' || c == '\r' ||
    c == Char.ofNat 11 || c == Char.ofNat 12

/-- Python `str.strip()`: drop leading and trailing whitespace. -/
def trimWs (l : List Char) : List Char :=
  ((l.dropWhile isSpaceChar).reverse.dropWhile isSpaceChar).reverse

/-- `beginsWith p l` is true when the list `l` starts with the pattern `p`. -/
def beginsWith : List Char → List Char → Bool
  | [], _ => true
  | _ :: _, [] => false
  | p :: ps, c :: cs => p == c && beginsWith ps cs

/-- Python `s.split(sep)` step: the text before and after the first
occurrence of `sep` in `s`, or `none` when `sep` does not occur. -/
def splitFirst (sep : List Char) (s : List Char) : Option (List Char × List Char) :=
  if beginsWith sep s then some ([], s.drop sep.length)
  else
    match s with
    | [] => none
    | c :: t => (splitFirst sep t).map (fun q => (c :: q.1, q.2))

/-- Python's substring test `sep in s`. -/
def occurs (sep : List Char) (s : List Char) : Bool :=
  (splitFirst sep s).isSome

/-- Python `s.split(sep)[-1]` (the text after the final occurrence of `sep`),
computed with explicit fuel so that the recursion is structural; the wrapper
`lastPart` supplies enough fuel. -/
def lastPartFuel : ℕ → List Char → List Char → List Char
  | 0, _, s => s
  | fuel + 1, sep, s =>
    match splitFirst sep s with
    | none => s
    | some q => lastPartFuel fuel sep q.2

/-- Python `s.split(sep)[-1]` for a non-empty separator. -/
def lastPart (sep s : List Char) : List Char :=
  lastPartFuel (s.length + 1) sep s

/-- `endsWithSeq p l` is true when `l` ends with the pattern `p`. -/
def endsWithSeq (p l : List Char) : Bool :=
  beginsWith p.reverse l.reverse

/-- Python `str.split()` (whitespace tokenisation, empty tokens discarded):
accumulator-based helper. -/
def wordsAux : List Char → List Char → List (List Char)
  | [], acc => if acc.isEmpty then [] else [acc.reverse]
  | c :: cs, acc =>
    if isSpaceChar c then
      (if acc.isEmpty then wordsAux cs [] else acc.reverse :: wordsAux cs [])
    else wordsAux cs (c :: acc)

/-- Python `str.split()`: whitespace-separated tokens of `l`. -/
def pyWords (l : List Char) : List (List Char) :=
  wordsAux l []

section UtilLemmas

theorem beginsWith_iff (p l : List Char) :
    beginsWith p l = true ↔ ∃ t, l = p ++ t := by
  induction p generalizing l with
  | nil => simp [beginsWith]
  | cons x xs ih =>
    cases l with
    | nil => simp [beginsWith]
    | cons c cs =>
      simp only [beginsWith, Bool.and_eq_true, beq_iff_eq, ih, List.cons_append,
        List.cons.injEq]
      constructor
      · rintro ⟨rfl, t, rfl⟩; exact ⟨t, rfl, rfl⟩
      · rintro ⟨t, rfl, rfl⟩; exact ⟨rfl, t, rfl⟩

theorem splitFirst_eq_some (sep : List Char) : ∀ (s pre post : List Char),
    splitFirst sep s = some (pre, post) → s = pre ++ sep ++ post := by
  intro s
  induction s with
  | nil =>
    intro pre post h
    rw [splitFirst] at h
    split at h
    · rename_i hb
      obtain ⟨t, ht⟩ := (beginsWith_iff sep []).mp hb
      have hsep : sep = [] := by
        cases sep with
        | nil => rfl
        | cons a as => exact absurd ht (by simp)
      subst hsep
      simp only [List.drop_nil, Option.some.injEq, Prod.mk.injEq] at h
      obtain ⟨h1, h2⟩ := h
      simp [← h1, ← h2]
    · simp at h
  | cons c t ih =>
    intro pre post h
    rw [splitFirst] at h
    split at h
    · rename_i hb
      obtain ⟨u, hu⟩ := (beginsWith_iff sep (c :: t)).mp hb
      simp only [Option.some.injEq, Prod.mk.injEq] at h
      obtain ⟨h1, h2⟩ := h
      subst h1
      rw [hu] at h2 ⊢
      rw [List.drop_left] at h2
      rw [← h2]
      simp
    · simp only [Option.map_eq_some'] at h
      obtain ⟨⟨q1, q2⟩, hq, heq⟩ := h
      simp only [Prod.mk.injEq] at heq
      obtain ⟨hq1, hq2⟩ := heq
      cases pre with
      | nil => exact absurd hq1 (by simp)
      | cons p ps =>
        simp only [List.cons.injEq] at hq1
        obtain ⟨rfl, rfl⟩ := hq1
        have := ih q1 q2 hq
        simp [this, hq2]

theorem splitFirst_eq_none (sep : List Char) : ∀ (s : List Char),
    splitFirst sep s = none → ¬ ∃ pre post, s = pre ++ sep ++ post := by
  intro s
  induction s with
  | nil =>
    intro h
    rintro ⟨pre, post, hps⟩
    rw [splitFirst] at h
    split at h
    · simp at h
    · rename_i hb
      have hpre : pre = [] := by
        cases pre with
        | nil => rfl
        | cons a as => simp at hps
      have hpost : post = [] := by
        cases post with
        | nil => rfl
        | cons a as => simp at hps
      subst hpre; subst hpost
      have hsep : sep = [] := by simpa using hps
      subst hsep
      exact hb rfl
  | cons c t ih =>
    intro h
    rintro ⟨pre, post, hps⟩
    rw [splitFirst] at h
    split at h
    · simp at h
    · rename_i hb
      cases pre with
      | nil =>
        apply hb
        rw [beginsWith_iff]
        exact ⟨post, by simpa using hps⟩
      | cons p ps =>
        simp only [List.cons_append, List.cons.injEq] at hps
        obtain ⟨rfl, hps⟩ := hps
        cases hsf : splitFirst sep t with
        | none => exact ih hsf ⟨ps, post, hps⟩
        | some q => rw [hsf] at h; simp at h


theorem occurs_iff (sep s : List Char) :
    occurs sep s = true ↔ ∃ pre post, s = pre ++ sep ++ post := by
  rw [occurs]
  constructor
  · intro h
    cases hsf : splitFirst sep s with
    | none => rw [hsf] at h; simp at h
    | some q => exact ⟨q.1, q.2, splitFirst_eq_some sep s q.1 q.2 (by rw [hsf])⟩
  · intro hex
    cases hsf : splitFirst sep s with
    | none => exact absurd hex (splitFirst_eq_none sep s hsf)
    | some q => simp [hsf]

theorem dropWhile_eq_self_of_all {p : Char → Bool} {l : List Char}
    (h : ∀ c ∈ l, p c = false) : l.dropWhile p = l := by
  cases l with
  | nil => rfl
  | cons c cs => rw [List.dropWhile_cons, h c (by simp)]; simp

theorem trimWs_eq_self {l : List Char} (h : ∀ c ∈ l, isSpaceChar c = false) :
    trimWs l = l := by
  unfold trimWs
  rw [dropWhile_eq_self_of_all h,
    dropWhile_eq_self_of_all (by intro c hc; exact h c (List.mem_reverse.mp hc)),
    List.reverse_reverse]

theorem endsWithSeq_iff (p l : List Char) :
    endsWithSeq p l = true ↔ ∃ t, l = t ++ p := by
  rw [endsWithSeq, beginsWith_iff]
  constructor
  · rintro ⟨t, ht⟩
    refine ⟨t.reverse, ?_⟩
    have := congrArg List.reverse ht
    simpa using this
  · rintro ⟨t, rfl⟩
    exact ⟨t.reverse, by simp⟩

end UtilLemmas

/-! ## Guardrail and chat orchestration service (`backend/chatbot_service.py`)

`check_content_guardrails`, the backend try-order of
`generate_chatbot_response`, and the Hugging Face response post-processing
are embedded below. The three `generate_response_*` functions call external
model runtimes; their outcomes enter as an oracle `gen : String → Option
String` (`None` models every failure path of the Python function, `Some s`
a produced completion). -/

/-- The built-in `BAD_WORDS` deny-list of `chatbot_service.py`. -/
def default_bad_words : List (List Char) :=
  ["fuck".toList, "shit".toList, "damn".toList,
   "bitch".toList, "asshole".toList, "bastard".toList]

/-- The early-exit word-frequency loop inside `check_content_guardrails`
(lines 165-173): walk the words, counting lowercased occurrences, and
report spam as soon as one count exceeds 10. `counts` is the Python dict
`word_counts`, modelled as a total function with default 0. -/
def spamScan : List (List Char) → (List Char → ℕ) → Bool
  | [], _ => false
  | w :: ws, counts =>
    let lw := w.map Char.toLower
    let c := counts lw + 1
    if 10 < c then true
    else spamScan ws (fun v => if v = lw then c else counts v)

/-- `check_content_guardrails(text)` of `chatbot_service.py` (lines
142-175), parameterised by the configured deny-list `badWords` (the
module-level `BAD_WORDS`, default list plus any file-loaded words). -/
def check_content_guardrails (badWords : List (List Char)) (text : List Char) :
    Bool × Option String :=
  if text.isEmpty || (trimWs text).isEmpty then (true, none)
  else
    let textLower := text.map Char.toLower
    if badWords.any (fun w => occurs w textLower) then
      (false, some "Your message contains inappropriate content. Please rephrase.")
    else
      if 50 < text.length then
        let words := pyWords text
        if 10 < words.length then
          if spamScan words (fun _ => 0) then
            (false, some "Your message appears to be spam. Please rephrase.")
          else (true, none)
        else (true, none)
      else (true, none)

/-- Number of case-insensitive occurrences of the (lowercase) word `w`
among `words`; the quantity the spam heuristic counts. -/
def wordCount (w : List Char) (words : List (List Char)) : ℕ :=
  (words.map (fun v => v.map Char.toLower)).count w

/-- The module-level chat configuration of `chatbot_service.py`:
`CHATBOT_BACKEND` (already lowercased at load), `OPENAI_VALID_KEY` and
`HF_CONFIGURED`. -/
structure ChatConfig where
  backend : String
  openaiValidKey : Bool
  hfConfigured : Bool

/-- The result dict of `generate_chatbot_response`. -/
structure ChatResult where
  response : Option String
  backend_used : Option String
  error : Option String
deriving DecidableEq

/-- Python truthiness of an `Optional[str]`: `None` and `""` are falsy. -/
def truthyStr : Option String → Bool
  | none => false
  | some s => !s.isEmpty

/-- The `backends_to_try` list built by `generate_chatbot_response`
(`chatbot_service.py` lines 454-488). -/
def backends_to_try (cfg : ChatConfig) : List String :=
  if cfg.backend = "llama" then
    ["llama"] ++ (if cfg.openaiValidKey then ["openai"] else [])
      ++ (if cfg.hfConfigured then ["huggingface"] else [])
  else if cfg.backend = "openai" then
    if cfg.openaiValidKey then
      ["openai", "llama"] ++ (if cfg.hfConfigured then ["huggingface"] else [])
    else
      ["llama"] ++ (if cfg.hfConfigured then ["huggingface"] else [])
  else if cfg.backend = "huggingface" then
    if cfg.hfConfigured then
      ["huggingface", "llama"] ++ (if cfg.openaiValidKey then ["openai"] else [])
    else
      ["llama"] ++ (if cfg.openaiValidKey then ["openai"] else [])
  else
    ["llama"] ++ (if cfg.openaiValidKey then ["openai"] else [])
      ++ (if cfg.hfConfigured then ["huggingface"] else [])

/-- The `for backend in backends_to_try` loop of `generate_chatbot_response`
(lines 490-515): the first backend whose generator returns a truthy string
wins; when all fail, the fixed unavailability record is returned. -/
def try_backends (cfg : ChatConfig) (gen : String → Option String) :
    List String → ChatResult
  | [] =>
    { response := none, backend_used := none,
      error := some "All chatbot backends are unavailable. Please check your configuration." }
  | b :: rest =>
    let r : Option String :=
      if b = "llama" then gen "llama"
      else if b = "openai" then gen "openai"
      else if b = "huggingface" ∧ cfg.hfConfigured then gen "huggingface"
      else none
    if truthyStr r then { response := r, backend_used := some b, error := none }
    else try_backends cfg gen rest

/-- `generate_chatbot_response(user_message)` (lines 428-515): guardrail
check first, then the backend loop. -/
def generate_chatbot_response (cfg : ChatConfig) (badWords : List (List Char))
    (gen : String → Option String) (user_message : List Char) : ChatResult :=
  let g := check_content_guardrails badWords user_message
  if g.1 = false then
    { response := none, backend_used := some "guardrails", error := g.2 }
  else
    try_backends cfg gen (backends_to_try cfg)

/-- Availability of a backend as a fallback, in the sense of the spec's
"including a fallback only if it is configured/valid": `llama` is always
listed, `openai` needs a valid key, `huggingface` needs configuration. -/
def backend_available (cfg : ChatConfig) : String → Bool
  | "llama" => true
  | "openai" => cfg.openaiValidKey
  | "huggingface" => cfg.hfConfigured
  | _ => false

/-- The primary backend after the spec's invalid-primary fallback: an
`openai`/`huggingface` primary that is not configured/valid, or any
unrecognised name, falls back to `llama`. -/
def effective_primary (cfg : ChatConfig) : String :=
  if (cfg.backend = "openai" ∨ cfg.backend = "huggingface")
      ∧ backend_available cfg cfg.backend then cfg.backend
  else "llama"

/-- The try-order as the spec words it: the (effective) primary first, then
the remaining backends in the fixed fallback order `llama, openai,
huggingface`, each included only if configured/valid. -/
def backends_to_try_spec (cfg : ChatConfig) : List String :=
  let p := effective_primary cfg
  p :: (["llama", "openai", "huggingface"].filter
    (fun b => decide (b ≠ p) && backend_available cfg b))

/-- First backend in a try-order whose generator result is a non-empty
string, together with that string (the spec's "the first backend returning
a non-empty string determines `backend_used`"). -/
def first_truthy (gen : String → Option String) : List String → Option (String × String)
  | [] => none
  | b :: rest =>
    match gen b with
    | some s => if s.isEmpty then first_truthy gen rest else some (b, s)
    | none => first_truthy gen rest

/-- The literal marker `"Assistant:"` used by the Hugging Face response
post-processing. -/
def assistantMarker : List Char := "Assistant:".toList

/-- The response post-processing of `generate_response_huggingface`
(`chatbot_service.py` lines 326-331): when the decoded text contains
`"Assistant:"`, keep `response.split("Assistant:")[-1].strip()` — the
trimmed text after the final occurrence of the marker; otherwise the
decoded text is returned unchanged. -/
def hf_extract (response : List Char) : List Char :=
  if occurs assistantMarker response then
    trimWs (lastPart assistantMarker response)
  else response

/-- The post-processing as the spec words it: the trimmed suffix following
the first occurrence of the marker. Stated for comparison with
`hf_extract`; written from the spec, not the source. -/
def hf_extract_spec_first (response : List Char) : List Char :=
  match splitFirst assistantMarker response with
  | some q => trimWs q.2
  | none => response

/-! ## Base64 padding repair (`backend/main.py`, `safe_b64decode`)

`base64.b64decode` itself is Python standard library; it is embedded as
RFC 4648 block decoding (`b64decodeChunks`), which is what `b64decode`
computes on well-formed payloads. `safe_b64decode` (lines 13-33) is the
repository's own code: strip whitespace, pad to a multiple of four with
`'='`, decode. A raised decoding error is modelled as `none`. -/

/-- Value of one base64 alphabet character. -/
def b64Val (c : Char) : Option ℕ :=
  if 'A' ≤ c ∧ c ≤ 'Z' then some (c.toNat - 65)
  else if 'a' ≤ c ∧ c ≤ 'z' then some (c.toNat - 97 + 26)
  else if '0' ≤ c ∧ c ≤ '9' then some (c.toNat - 48 + 52)
  else if c = '+' then some 62
  else if c = '/' then some 63
  else none

/-- Whether `c` belongs to the base64 alphabet (excluding padding). -/
def isB64Char (c : Char) : Bool :=
  (b64Val c).isSome

/-- Decode one four-character base64 block, honouring `'='` padding. -/
def b64DecodeBlock (a b c d : Char) : Option (List ℕ) :=
  match b64Val a, b64Val b with
  | some va, some vb =>
    if c = '=' then
      if d = '=' then some [va * 4 + vb / 16] else none
    else
      match b64Val c with
      | some vc =>
        if d = '=' then some [va * 4 + vb / 16, vb % 16 * 16 + vc / 4]
        else
          match b64Val d with
          | some vd =>
            some [va * 4 + vb / 16, vb % 16 * 16 + vc / 4, vc % 4 * 64 + vd]
          | none => none
      | none => none
  | _, _ => none

/-- Base64 decoding of a fully padded payload, four characters at a time;
`none` models the `binascii` error Python raises on malformed input. -/
def b64decodeChunks : List Char → Option (List ℕ)
  | [] => some []
  | a :: b :: c :: d :: rest =>
    match b64DecodeBlock a b c d, b64decodeChunks rest with
    | some bytes, some tail => some (bytes ++ tail)
    | _, _ => none
  | _ => none

/-- `safe_b64decode(data)` of `backend/main.py` (lines 13-33): strip
whitespace, add `'='` padding up to a multiple of four, decode. -/
def safe_b64decode (data : List Char) : Option (List ℕ) :=
  let stripped := trimWs data
  let missing := stripped.length % 4
  let padded :=
    if missing ≠ 0 then stripped ++ List.replicate (4 - missing) '=' else stripped
  b64decodeChunks padded

/-! ## WebSocket gateway: segment finalization (`backend/main.py`,
`websocket_audio_stream`)

The frames the handler sends in response to one `segment_end` control
message (lines 389-551) are computed by `handle_segment_end`. External
effects are parameters: `modelLoaded` is whether `model` is non-`None`;
`transcribe` is the outcome of writing the temp file and running
`model.transcribe` (`Except.error` for any raised exception, including a
missing temp file); `logWrite` is the outcome of appending to the session
log; `chatbot` is the outcome of `generate_chatbot_response` (`Except.error`
when the call itself raises). -/

/-- Server-to-client frames of the `/ws/audio` protocol. -/
inductive WsFrame where
  | errorFrame (msg : String)
  | chatbotResponse (response : Option String) (backendUsed : Option String)
      (err : Option String) (transcription : String)
  | segmentProcessed
  | sessionAck (sessionId : Option String)
  | chunkReceived
deriving DecidableEq

/-- External outcomes consumed while finalizing one segment. -/
structure SegmentEndEnv where
  modelLoaded : Bool
  transcribe : Except String String
  logWrite : Except String Unit
  chatbot : Except String ChatResult

/-- The transcription-error rewrite of lines 520-526: an exception whose
lowercased text mentions `ffmpeg` or `winerror 2` becomes an FFmpeg install
instruction; anything else is reported as `Transcription error: ...`. -/
def rewrite_transcription_error (e : String) : String :=
  let lower := e.toList.map Char.toLower
  if occurs "ffmpeg".toList lower || occurs "winerror 2".toList lower then
    "FFmpeg not found. Please install FFmpeg from https://ffmpeg.org/download.html"
  else "Transcription error: " ++ e

/-- The `chatbot_response` frame sent for a non-empty transcription (lines
462-501): one frame in every branch, including when
`generate_chatbot_response` raises. -/
def chatbot_frames (chatbot : Except String ChatResult) (transcription : String) :
    List WsFrame :=
  match chatbot with
  | .error e =>
    [.chatbotResponse none (some "error") (some ("Chatbot error: " ++ e)) transcription]
  | .ok r =>
    if truthyStr r.error then
      [.chatbotResponse none r.backend_used r.error transcription]
    else if truthyStr r.response then
      [.chatbotResponse r.response r.backend_used none transcription]
    else
      [.chatbotResponse none
        (if truthyStr r.backend_used then r.backend_used else some "unknown")
        r.error transcription]

/-- All frames the gateway sends while handling one `segment_end` control
message (lines 389-551), given the buffered bytes, the session id and the
external outcomes. -/
def handle_segment_end (buffer : List ℕ) (sessionId : Option String)
    (env : SegmentEndEnv) : List WsFrame :=
  (if 0 < buffer.length then
    if buffer.length = 0 then [.errorFrame "Empty audio buffer"]
    else if env.modelLoaded = false then
      [.errorFrame "Whisper model not initialized"]
    else
      match env.transcribe with
      | .error e => [.errorFrame (rewrite_transcription_error e)]
      | .ok raw =>
        let transcription := trimWs raw.toList
        let chatPart : List WsFrame :=
          if ¬transcription.isEmpty then chatbot_frames env.chatbot ⟨transcription⟩
          else
            [.chatbotResponse none (some "none")
              (some "No speech detected in audio segment") ""]
        if ¬transcription.isEmpty ∧ sessionId.isSome then
          match env.logWrite with
          | .error e => [.errorFrame (rewrite_transcription_error e)]
          | .ok _ => chatPart
        else chatPart
  else [.errorFrame "No audio data received before segment_end"])
  ++ [.segmentProcessed]

/-! ## Energy-VAD segmentation (`backend/speaker_diarization.py`,
`segment_audio_vad`)

The decode/resample stage and the RMS energy computation call external
audio libraries; the frame walk of lines 217-254 is embedded over the
resulting list of `(time, energy)` frames (both rational). Times and
energies are exact rationals where Python uses floats; the walk's control
flow is identical over any ordered field. -/

/-- Loop state of the VAD frame walk (`in_speech`, `speech_start`,
`silence_count`, `speech_count`, `segments`). -/
structure VadState where
  inSpeech : Bool
  speechStart : Option ℚ
  silenceCount : ℕ
  speechCount : ℕ
  segs : List (ℚ × ℚ)

/-- Initial state of the walk. -/
def vadInit : VadState :=
  { inSpeech := false, speechStart := none, silenceCount := 0,
    speechCount := 0, segs := [] }

/-- One iteration of the `for time, energy in frames` loop (lines 227-247).
`minFramesSilence` is the computed `min_frames_silence`, `minSpeechMs` the
`min_speech_duration_ms` parameter and `thr` the `energy_threshold`. -/
def vad_step (minFramesSilence : ℕ) (minSpeechMs : ℚ) (thr : ℚ)
    (st : VadState) (f : ℚ × ℚ) : VadState :=
  if thr < f.2 then
    { st with
      silenceCount := 0
      inSpeech := true
      speechStart := if st.inSpeech then st.speechStart else some f.1
      speechCount := if st.inSpeech then st.speechCount + 1 else 1 }
  else
    if st.inSpeech then
      if minFramesSilence ≤ st.silenceCount + 1 then
        { st with
          speechCount := 0
          silenceCount := 0
          inSpeech := false
          segs :=
            match st.speechStart with
            | some s =>
              if minSpeechMs / 1000 ≤ f.1 - s then st.segs ++ [(s, f.1)]
              else st.segs
            | none => st.segs }
      else { st with speechCount := 0, silenceCount := st.silenceCount + 1 }
    else { st with speechCount := 0, silenceCount := st.silenceCount + 1 }

/-- The full frame walk. -/
def vad_walk (minFramesSilence : ℕ) (minSpeechMs : ℚ) (thr : ℚ)
    (frames : List (ℚ × ℚ)) : VadState :=
  frames.foldl (vad_step minFramesSilence minSpeechMs thr) vadInit

/-- Segments returned for a frame list and total audio duration: the closed
segments of the walk plus, when speech is still open at end-of-file, a
final segment ending at `duration` (lines 249-251). -/
def detect_speech_segments (minFramesSilence : ℕ) (minSpeechMs : ℚ) (thr : ℚ)
    (frames : List (ℚ × ℚ)) (duration : ℚ) : List (ℚ × ℚ) :=
  let st := vad_walk minFramesSilence minSpeechMs thr frames
  st.segs ++
    (match st.inSpeech, st.speechStart with
     | true, some s => [(s, duration)]
     | _, _ => [])

/-- `segment_audio_vad`'s walk with `min_frames_silence` computed as the
source computes it: `int(min_silence_duration_ms / frame_duration_ms)`,
i.e. truncating (floor) division (line 222). -/
def segment_audio_vad_core (frameDurationMs : ℕ) (energyThreshold : ℚ)
    (minSpeechDurationMs : ℕ) (minSilenceDurationMs : ℕ)
    (frames : List (ℚ × ℚ)) (duration : ℚ) : List (ℚ × ℚ) :=
  detect_speech_segments (minSilenceDurationMs / frameDurationMs)
    (minSpeechDurationMs : ℚ) energyThreshold frames duration

/-- The walk as the claim words it, with the silence threshold
`⌈min_silence_duration_ms / frame_duration_ms⌉` (ceiling division).
Written from the spec for comparison with `segment_audio_vad_core`. -/
def segment_audio_vad_spec_ceil (frameDurationMs : ℕ) (energyThreshold : ℚ)
    (minSpeechDurationMs : ℕ) (minSilenceDurationMs : ℕ)
    (frames : List (ℚ × ℚ)) (duration : ℚ) : List (ℚ × ℚ) :=
  detect_speech_segments
    ((minSilenceDurationMs + frameDurationMs - 1) / frameDurationMs)
    (minSpeechDurationMs : ℚ) energyThreshold frames duration

/-! ## Speaker-count auto-detection (`backend/speaker_diarization.py`,
`cluster_speakers` lines 372-391)

KMeans and the silhouette coefficient are sklearn calls; a candidate
cluster count's scoring enters as an oracle `score : ℕ → Option ℚ`, where
`none` models the `except: continue` path (clustering or scoring raised)
and `some s` a computed silhouette score. -/

/-- The candidate cluster counts the loop tries:
`range(2, min(6, len(embeddings) + 1))`. -/
def auto_candidates (numEmbeddings : ℕ) : List ℕ :=
  List.range' 2 (min 6 (numEmbeddings + 1) - 2)

/-- The candidate range as the claim words it: `range(2, min(6,
numEmbeddings))`. Written from the spec for comparison with
`auto_candidates`. -/
def auto_candidates_spec (numEmbeddings : ℕ) : List ℕ :=
  List.range' 2 (min 6 numEmbeddings - 2)

/-- The best-score fold of the auto-detection loop, carrying
`(best_score, best_n)`; failures are skipped, a strictly better score
replaces the incumbent. -/
def auto_detect_go (score : ℕ → Option ℚ) : List ℕ → ℚ × ℕ → ℚ × ℕ
  | [], best => best
  | k :: ks, best =>
    match score k with
    | none => auto_detect_go score ks best
    | some s =>
      auto_detect_go score ks (if best.1 < s then (s, k) else best)

/-- The auto-detected speaker count: fold over the candidates starting
from `best_score = -1`, `best_n = 2`. -/
def auto_detect_speakers (numEmbeddings : ℕ) (score : ℕ → Option ℚ) : ℕ :=
  (auto_detect_go score (auto_candidates numEmbeddings) (-1, 2)).2

/-! ## Test report generator
(`backend/tests/test_report_generator.py`, `calculate_metrics`)

Durations are rationals. `statistics.stdev` returns the square root of the
sample variance; to stay inside `ℚ` the embedded record stores the square
of the code's `std_dev_ms` field (`std_dev_sq_ms`). The real square root is
injective on non-negative rationals, so every comparison between standard
deviations is settled faithfully at the variance level. -/

/-- One collected test result (the fields `calculate_metrics` reads). -/
structure TestResultR where
  test_name : String
  test_file : String
  status : String
  duration_ms : ℚ
  category : String
deriving DecidableEq

/-- The `PerformanceMetrics` dataclass, with `std_dev_ms` squared (see
section comment). -/
structure PerformanceMetricsR where
  category : String
  total_tests : ℕ
  passed : ℕ
  failed : ℕ
  skipped : ℕ
  avg_time_ms : ℚ
  min_time_ms : ℚ
  max_time_ms : ℚ
  median_time_ms : ℚ
  std_dev_sq_ms : ℚ
  p95_time_ms : ℚ
  p99_time_ms : ℚ
deriving DecidableEq

/-- `statistics.mean`. -/
def pyMean (data : List ℚ) : ℚ :=
  data.sum / data.length

/-- Python `min` over a list (0 on the empty list, which the caller
excludes). -/
def pyMin : List ℚ → ℚ
  | [] => 0
  | x :: xs => xs.foldl min x

/-- Python `max` over a list (0 on the empty list, which the caller
excludes). -/
def pyMax : List ℚ → ℚ
  | [] => 0
  | x :: xs => xs.foldl max x

/-- `statistics.median`: middle element of the sorted data for odd length,
mean of the two middle elements for even length. -/
def pyMedian (data : List ℚ) : ℚ :=
  let s := List.insertionSort (· ≤ ·) data
  let n := data.length
  if n = 0 then 0
  else if n % 2 = 1 then s.getD (n / 2) 0
  else (s.getD (n / 2 - 1) 0 + s.getD (n / 2) 0) / 2

/-- `TestReportGenerator._percentile` (lines 112-118): nearest-rank index
`int(len * percentile / 100)` into the sorted data, clamped to the last
index. Python's float division is exact at these magnitudes, so `int(...)`
is truncating natural division. -/
def nearest_rank (data : List ℚ) (percentile : ℕ) : ℚ :=
  if data.isEmpty then 0
  else
    (List.insertionSort (· ≤ ·) data).getD
      (min (data.length * percentile / 100) (data.length - 1)) 0

/-- Square of `statistics.stdev(times) if len(times) > 1 else 0`: the
sample variance (denominator `n - 1`), 0 for fewer than two samples. -/
def sample_variance (data : List ℚ) : ℚ :=
  if data.length ≤ 1 then 0
  else ((data.map (fun x => (x - pyMean data) ^ 2)).sum) / (data.length - 1)

/-- Population variance (denominator `n`), the square of the population
standard deviation the claim names. Written from the spec for comparison
with `sample_variance`. -/
def population_variance (data : List ℚ) : ℚ :=
  if data.isEmpty then 0
  else ((data.map (fun x => (x - pyMean data) ^ 2)).sum) / data.length

/-- The all-zero metrics record returned when a category has no passed
test (lines 78-92). -/
def zeroMetrics (category : String) : PerformanceMetricsR :=
  { category := category, total_tests := 0, passed := 0, failed := 0,
    skipped := 0, avg_time_ms := 0, min_time_ms := 0, max_time_ms := 0,
    median_time_ms := 0, std_dev_sq_ms := 0, p95_time_ms := 0,
    p99_time_ms := 0 }

/-- `TestReportGenerator.calculate_metrics(category)` (lines 74-110). -/
def calculate_metrics (results : List TestResultR) (category : String) :
    PerformanceMetricsR :=
  let category_results :=
    results.filter (fun r => r.category == category && r.status == "passed")
  if category_results.isEmpty then zeroMetrics category
  else
    let times := category_results.map (fun r => r.duration_ms)
    let all_category := results.filter (fun r => r.category == category)
    { category := category,
      total_tests := all_category.length,
      passed := (all_category.filter (fun r => r.status == "passed")).length,
      failed := (all_category.filter (fun r => r.status == "failed")).length,
      skipped := (all_category.filter (fun r => r.status == "skipped")).length,
      avg_time_ms := pyMean times,
      min_time_ms := pyMin times,
      max_time_ms := pyMax times,
      median_time_ms := pyMedian times,
      std_dev_sq_ms := sample_variance times,
      p95_time_ms := nearest_rank times 95,
      p99_time_ms := nearest_rank times 99 }

/-! ## HTTP surface (`backend/main.py`) -/

/-- `check_ffmpeg()` (lines 222-231), abstracted over the result of
`shutil.which("ffmpeg")`. -/
def check_ffmpeg (whichFfmpeg : Option String) : Bool :=
  whichFfmpeg.isSome

/-- The `/health` response model. -/
structure HealthResponseR where
  status : String
  version : String
  recordings_count : ℕ
deriving DecidableEq

/-- Whether a filename matches the glob pattern `*.webm` (`pathlib` glob
`*` matches any character sequence, including the empty one, so the
pattern selects exactly the names ending in `.webm`). -/
def matches_webm_glob (name : List Char) : Bool :=
  endsWithSeq ".webm".toList name

/-- The `/health` endpoint (lines 307-321), abstracted over the
`shutil.which` probe, the existence of the recordings directory and the
directory's file names. -/
def health_endpoint (whichFfmpeg : Option String) (dirExists : Bool)
    (dirFiles : List (List Char)) : HealthResponseR :=
  let recordings_count :=
    if dirExists then (dirFiles.filter matches_webm_glob).length else 0
  let ffmpeg_available := check_ffmpeg whichFfmpeg
  { status := if ffmpeg_available then "ok" else "warning",
    version := "1.0.0",
    recordings_count := recordings_count }

/-- Result of the recording-download endpoint. -/
inductive RecordingResult where
  | httpError (code : ℕ) (detail : String)
  | fileResponse (filename : List Char) (mediaType : String)
deriving DecidableEq

/-- Modelled from the spec: the `GET /recordings/{filename}` handler is
not present under `src/backend` (the repository's recording/session REST
endpoints exist only in the spec's §4.3 and §6); per the spec it rejects
filenames containing the path-traversal sequences `..`, `/` or `\` with a
400 client error, rejects disallowed extensions with a 400, returns 404
when no such file exists, and otherwise serves the file with a content
type chosen by extension (`audio/webm` for `.webm`, `audio/ogg` otherwise
among the allowed set). -/
def get_recording (filename : List Char) (existingFiles : List (List Char)) :
    RecordingResult :=
  if occurs "..".toList filename || occurs "/".toList filename ||
      occurs "\\".toList filename then
    .httpError 400 "Invalid filename"
  else if !(["webm", "opus", "ogg", "wav", "m4a"].any
      (fun e => endsWithSeq ('.' :: e.toList) filename)) then
    .httpError 400 "Invalid file type"
  else if existingFiles.contains filename then
    .fileResponse filename
      (if endsWithSeq ".webm".toList filename then "audio/webm" else "audio/ogg")
  else .httpError 404 "Recording not found"

/-- Whether a frame is a `chatbot_response` frame. -/
def is_chatbot_response : WsFrame → Bool
  | .chatbotResponse _ _ _ _ => true
  | _ => false

/-- A concrete frame list as `segment_audio_vad` would build it at the
default parameters (frame `k` starts at sample `480 k`, i.e. at time
`3k/100` seconds; energy 1 = loud, 0 = silent): ten speech frames, three
silent frames, ten speech frames, four silent frames. -/
def exFrames : List (ℚ × ℚ) :=
  [(0, 1), (3/100, 1), (6/100, 1), (9/100, 1), (12/100, 1), (15/100, 1),
   (18/100, 1), (21/100, 1), (24/100, 1), (27/100, 1),
   (30/100, 0), (33/100, 0), (36/100, 0),
   (39/100, 1), (42/100, 1), (45/100, 1), (48/100, 1), (51/100, 1),
   (54/100, 1), (57/100, 1), (60/100, 1), (63/100, 1), (66/100, 1),
   (69/100, 0), (72/100, 0), (75/100, 0), (78/100, 0)]

/-! ## Claims -/

/-- C1: every request to download a recording whose filename contains
`..`, `/` or `\` is rejected with a 400 client error, for every such
filename and every state of the recordings directory (in particular when
no file of that literal name exists). -/
theorem c1_traversal_rejected (filename : List Char)
    (existingFiles : List (List Char))
    (h : occurs "..".toList filename = true ∨ occurs "/".toList filename = true ∨
      occurs "\\".toList filename = true) :
    get_recording filename existingFiles = .httpError 400 "Invalid filename" := by
  unfold get_recording
  rcases h with h | h | h <;> simp only [String.toList] at h <;> simp [h]

/-- Witness for C1: the filename `../etc/passwd` is rejected with a 400
even though the recordings directory is empty. -/
theorem c1_traversal_rejected_witness :
    get_recording "../etc/passwd".toList [] = .httpError 400 "Invalid filename" :=
  c1_traversal_rejected "../etc/passwd".toList [] (Or.inl (by decide))

/-- C10: the `/health` status is `"ok"` exactly when an ffmpeg executable
was found on the search path and `"warning"` otherwise (never anything
else); the version is always `"1.0.0"`; and `recordings_count` counts the
files matching `*.webm` (exactly the names ending in `.webm`) when the
recordings directory exists, and is 0 otherwise. -/
theorem c10_health_endpoint (whichFfmpeg : Option String) (dirExists : Bool)
    (dirFiles : List (List Char)) :
    ((health_endpoint whichFfmpeg dirExists dirFiles).status = "ok" ↔
      whichFfmpeg.isSome = true)
    ∧ ((health_endpoint whichFfmpeg dirExists dirFiles).status = "warning" ↔
      whichFfmpeg = none)
    ∧ (health_endpoint whichFfmpeg dirExists dirFiles).version = "1.0.0"
    ∧ (∀ f, matches_webm_glob f = true ↔ ∃ t, f = t ++ ".webm".toList)
    ∧ (health_endpoint whichFfmpeg dirExists dirFiles).recordings_count =
        (if dirExists then (dirFiles.filter matches_webm_glob).length else 0) := by
  refine ⟨?_, ?_, rfl, fun f => endsWithSeq_iff _ f, rfl⟩
  · cases whichFfmpeg <;> simp [health_endpoint, check_ffmpeg]
  · cases whichFfmpeg <;> simp [health_endpoint, check_ffmpeg]

theorem isSpaceChar_eq_false_of_b64 {c : Char} (h : isB64Char c = true) :
    isSpaceChar c = false := by
  by_contra hs
  rw [Bool.not_eq_false] at hs
  simp only [isSpaceChar, Bool.or_eq_true, beq_iff_eq] at hs
  rcases hs with ((((rfl | rfl) | rfl) | rfl) | rfl) | rfl <;> simp [isB64Char, b64Val] at h

/-- C9: for every valid base64 payload with `k ≤ 3` characters of trailing
`'='` padding removed (base64 padding is at most two characters, so
`k ≤ pad ≤ 2` covers every removable amount), `safe_b64decode` pads the
input back to a multiple of four and decodes exactly the bytes of the
fully padded payload; a fully padded payload decodes unchanged
(idempotence of the repair). -/
theorem c9_safe_b64decode_repair (body : List Char) (pad k : ℕ)
    (hbody : ∀ c ∈ body, isB64Char c = true) (hpad : pad ≤ 2) (hk : k ≤ pad)
    (hlen : (body.length + pad) % 4 = 0) :
    safe_b64decode (body ++ List.replicate (pad - k) '=') =
      b64decodeChunks (body ++ List.replicate pad '=')
    ∧ safe_b64decode (body ++ List.replicate pad '=') =
      b64decodeChunks (body ++ List.replicate pad '=') := by
  have hnosp : ∀ (m : ℕ), ∀ c ∈ body ++ List.replicate m '=', isSpaceChar c = false := by
    intro m c hc
    rcases List.mem_append.mp hc with hc | hc
    · exact isSpaceChar_eq_false_of_b64 (hbody c hc)
    · rw [List.eq_of_mem_replicate hc]; rfl
  have key : ∀ (j : ℕ), j ≤ pad →
      safe_b64decode (body ++ List.replicate (pad - j) '=') =
        b64decodeChunks (body ++ List.replicate pad '=') := by
    intro j hj
    have hlen2 : (body ++ List.replicate (pad - j) '=').length = body.length + (pad - j) := by
      simp
    simp only [safe_b64decode, trimWs_eq_self (hnosp (pad - j)), hlen2]
    rcases Nat.eq_zero_or_pos j with rfl | hjpos
    · have h0 : (body.length + (pad - 0)) % 4 = 0 := by omega
      rw [h0]
      simp
    · have hm : (body.length + (pad - j)) % 4 = 4 - j := by omega
      rw [hm]
      have hne : 4 - j ≠ 0 := by omega
      rw [if_pos hne, List.append_assoc, ← List.replicate_add]
      have heq : pad - j + (4 - (4 - j)) = pad := by omega
      rw [heq]
  exact ⟨key k hk, key 0 (Nat.zero_le _)⟩

/-- Witness for C9: stripping the one padding character of `"TWE="`
(decoding to the bytes of `"Ma"`) is repaired exactly. -/
theorem c9_safe_b64decode_repair_witness :
    safe_b64decode ("TWE".toList ++ List.replicate 0 '=') =
      b64decodeChunks ("TWE".toList ++ List.replicate 1 '=') :=
  (c9_safe_b64decode_repair "TWE".toList 1 1 (by decide) (by decide) (by decide)
    (by decide)).1

theorem lastPartFuel_spec (sep : List Char) (hsep : sep ≠ []) :
    ∀ (fuel : ℕ) (s : List Char), s.length < fuel →
      (occurs sep s = true →
        (∃ pre, s = pre ++ sep ++ lastPartFuel fuel sep s) ∧
          occurs sep (lastPartFuel fuel sep s) = false)
      ∧ (occurs sep s = false → lastPartFuel fuel sep s = s) := by
  intro fuel
  induction fuel with
  | zero => intro s hs; omega
  | succ n ih =>
    intro s hs
    rw [lastPartFuel]
    cases hsf : splitFirst sep s with
    | none =>
      refine ⟨fun hocc => ?_, fun _ => rfl⟩
      rw [occurs, hsf] at hocc
      simp at hocc
    | some q =>
      obtain ⟨q1, q2⟩ := q
      dsimp only
      have hdec : s = q1 ++ sep ++ q2 := splitFirst_eq_some sep s q1 q2 hsf
      have hq2len : q2.length < n := by
        have : 1 ≤ sep.length := by
          cases sep with
          | nil => exact absurd rfl hsep
          | cons a as => simp
        have := congrArg List.length hdec
        simp only [List.length_append] at this
        omega
      have ihq := ih q2 hq2len
      refine ⟨fun _ => ?_, fun hnocc => ?_⟩
      · by_cases hocc2 : occurs sep q2 = true
        · obtain ⟨⟨pre2, hpre2⟩, hlast⟩ := ihq.1 hocc2
          refine ⟨⟨q1 ++ sep ++ pre2, ?_⟩, hlast⟩
          conv_lhs => rw [hdec, hpre2]
          simp
        · have hocc2' : occurs sep q2 = false := by
            cases h : occurs sep q2
            · rfl
            · exact absurd h hocc2
          rw [ihq.2 hocc2']
          exact ⟨⟨q1, hdec⟩, hocc2'⟩
      · rw [occurs, hsf] at hnocc
        simp at hnocc

/-- Counterexample for C8: on a decoded output containing the marker
twice, the code keeps the suffix after the final occurrence (`"bar"`),
not the trimmed suffix after the first occurrence
(`"foo Assistant: bar"`). -/
theorem c8_counterexample :
    hf_extract "Assistant: foo Assistant: bar".toList = "bar".toList
    ∧ hf_extract_spec_first "Assistant: foo Assistant: bar".toList =
        "foo Assistant: bar".toList
    ∧ hf_extract "Assistant: foo Assistant: bar".toList ≠
        hf_extract_spec_first "Assistant: foo Assistant: bar".toList := by
  refine ⟨by decide, by decide, by decide⟩

/-- C8 (amended): whenever the decoded model output contains the literal
marker `"Assistant:"`, the returned text is the trimmed suffix following
the final occurrence of the marker: the kept suffix follows an occurrence
of the marker and itself contains no further occurrence. -/
theorem c8_hf_extract_last (s : List Char)
    (h : occurs assistantMarker s = true) :
    (∃ pre, s = pre ++ assistantMarker ++ lastPart assistantMarker s)
    ∧ occurs assistantMarker (lastPart assistantMarker s) = false
    ∧ hf_extract s = trimWs (lastPart assistantMarker s) := by
  have hne : assistantMarker ≠ [] := by decide
  have hspec := (lastPartFuel_spec assistantMarker hne (s.length + 1) s
    (Nat.lt_succ_self _)).1 h
  exact ⟨hspec.1, hspec.2, by rw [hf_extract, if_pos h]⟩

/-- Witness for C8: the marker occurs in `"Assistant: hi"` and the code
returns the trimmed text after its final occurrence. -/
theorem c8_hf_extract_last_witness :
    hf_extract "Assistant: hi".toList =
      trimWs (lastPart assistantMarker "Assistant: hi".toList) :=
  (c8_hf_extract_last "Assistant: hi".toList (by decide)).2.2

theorem trimWs_eq_nil_of_all {l : List Char} (h : ∀ c ∈ l, isSpaceChar c = true) :
    trimWs l = [] := by
  unfold trimWs
  have h1 : l.dropWhile isSpaceChar = [] := List.dropWhile_eq_nil_iff.mpr h
  rw [h1]
  rfl

theorem trimWs_ne_nil_of_mem {l : List Char} {d : Char} (hd : d ∈ l)
    (hns : isSpaceChar d = false) : trimWs l ≠ [] := by
  intro hnil
  unfold trimWs at hnil
  rw [List.reverse_eq_nil_iff] at hnil
  rw [List.dropWhile_eq_nil_iff] at hnil
  have hall : ∀ c ∈ l.dropWhile isSpaceChar, isSpaceChar c = true := by
    intro c hc
    exact hnil c (List.mem_reverse.mpr hc)
  have : ∀ c ∈ l, isSpaceChar c = true := by
    intro c hc
    rw [← List.takeWhile_append_dropWhile (p := isSpaceChar) (l := l)] at hc
    rcases List.mem_append.mp hc with hc | hc
    · exact List.mem_takeWhile_imp hc
    · exact hall c hc
  rw [this d hd] at hns
  exact Bool.true_eq_false.mp hns

theorem spamScan_iff (ws : List (List Char)) (counts : List Char → ℕ)
    (hc : ∀ w, counts w ≤ 10) :
    spamScan ws counts = true ↔
      ∃ w, 10 < counts w + (ws.map (fun v => v.map Char.toLower)).count w := by
  induction ws generalizing counts with
  | nil =>
    simp only [spamScan, List.map_nil, List.count_nil, Nat.add_zero]
    constructor
    · intro h; exact absurd h (by simp)
    · rintro ⟨w, hw⟩; exact absurd hw (by have := hc w; omega)
  | cons w ws ih =>
    simp only [spamScan]
    by_cases hbig : 10 < counts (w.map Char.toLower) + 1
    · rw [if_pos hbig]
      simp only [true_iff]
      refine ⟨w.map Char.toLower, ?_⟩
      simp only [List.map_cons, List.count_cons_self]
      omega
    · rw [if_neg hbig]
      have hc' : ∀ v, (fun v => if v = w.map Char.toLower
          then counts (w.map Char.toLower) + 1 else counts v) v ≤ 10 := by
        intro v
        dsimp only
        by_cases hv : v = w.map Char.toLower
        · rw [hv, if_pos rfl]; omega
        · rw [if_neg hv]; exact hc v
      rw [ih _ hc']
      apply exists_congr
      intro v
      by_cases hv : v = w.map Char.toLower
      · subst hv
        rw [if_pos rfl]
        simp only [List.map_cons, List.count_cons_self]
        omega
      · rw [if_neg hv]
        simp only [List.map_cons]
        rw [List.count_cons_of_ne hv]

theorem toLower_eq_self_of_space {d : Char} (h : isSpaceChar d = true) :
    Char.toLower d = d := by
  simp only [isSpaceChar, Bool.or_eq_true, beq_iff_eq] at h
  rcases h with ((((rfl | rfl) | rfl) | rfl) | rfl) | rfl <;> decide

/-- C3: `check_content_guardrails` is safe on empty or whitespace-only
text; rejects with the inappropriate-content message whenever the
lowercased text contains a configured deny-list word (any word with a
non-whitespace character, as all loaded words have); returns the spam
message only when the text exceeds 50 characters, splits into more than
10 words and some word occurs case-insensitively more than 10 times; and
is safe otherwise. -/
theorem c3_check_content_guardrails (badWords : List (List Char)) (text : List Char) :
    ((text = [] ∨ ∀ c ∈ text, isSpaceChar c = true) →
      check_content_guardrails badWords text = (true, none))
    ∧ ((∃ w ∈ badWords, occurs w (text.map Char.toLower) = true ∧
          ∃ c ∈ w, isSpaceChar c = false) →
      check_content_guardrails badWords text =
        (false, some "Your message contains inappropriate content. Please rephrase."))
    ∧ (check_content_guardrails badWords text =
        (false, some "Your message appears to be spam. Please rephrase.") →
      50 < text.length ∧ 10 < (pyWords text).length ∧
        ∃ w, 10 < wordCount w (pyWords text))
    ∧ ((∀ w ∈ badWords, occurs w (text.map Char.toLower) = false) →
        (∀ w, wordCount w (pyWords text) ≤ 10) →
      check_content_guardrails badWords text = (true, none)) := by
  refine ⟨?_, ?_, ?_, ?_⟩
  · rintro (rfl | hall)
    · rfl
    · simp only [check_content_guardrails]
      rw [if_pos]
      rw [trimWs_eq_nil_of_all hall]
      simp
  · rintro ⟨w, hw, hocc, c, hcw, hcs⟩
    obtain ⟨pre, post, hdec⟩ := (occurs_iff _ _).mp hocc
    have hcmem : c ∈ text.map Char.toLower := by
      rw [hdec]
      simp only [List.mem_append]
      exact Or.inl (Or.inr hcw)
    obtain ⟨d, hd, hdc⟩ := List.mem_map.mp hcmem
    have hdns : isSpaceChar d = false := by
      by_contra hds
      rw [Bool.not_eq_false] at hds
      rw [toLower_eq_self_of_space hds] at hdc
      rw [hdc] at hds
      rw [hds] at hcs
      exact Bool.true_eq_false.mp hcs
    have hne : text ≠ [] := by
      intro hnil
      rw [hnil] at hd
      exact List.not_mem_nil d hd
    simp only [check_content_guardrails]
    rw [if_neg]
    · rw [if_pos]
      rw [List.any_eq_true]
      exact ⟨w, hw, hocc⟩
    · simp only [Bool.or_eq_true, List.isEmpty_iff, not_or]
      exact ⟨hne, trimWs_ne_nil_of_mem hd hdns⟩
  · intro h
    simp only [check_content_guardrails] at h
    by_cases h1 : (text.isEmpty || (trimWs text).isEmpty) = true
    · rw [if_pos h1] at h
      exact absurd h (by decide)
    · rw [if_neg h1] at h
      by_cases h2 : badWords.any (fun w => occurs w (text.map Char.toLower)) = true
      · rw [if_pos h2] at h
        exact absurd h (by decide)
      · rw [if_neg h2] at h
        by_cases h3 : 50 < text.length
        · rw [if_pos h3] at h
          by_cases h4 : 10 < (pyWords text).length
          · rw [if_pos h4] at h
            by_cases h5 : spamScan (pyWords text) (fun _ => 0) = true
            · refine ⟨h3, h4, ?_⟩
              have := (spamScan_iff (pyWords text) (fun _ => 0)
                (by intro w; exact Nat.zero_le _)).mp h5
              simpa [wordCount] using this
            · rw [if_neg h5] at h
              exact absurd h (by decide)
          · rw [if_neg h4] at h
            exact absurd h (by decide)
        · rw [if_neg h3] at h
          exact absurd h (by decide)
  · intro hb hs
    simp only [check_content_guardrails]
    by_cases h1 : (text.isEmpty || (trimWs text).isEmpty) = true
    · rw [if_pos h1]
    · rw [if_neg h1]
      have h2 : ¬ badWords.any (fun w => occurs w (text.map Char.toLower)) = true := by
        rw [List.any_eq_true]
        rintro ⟨w, hw, hocc⟩
        rw [hb w hw] at hocc
        exact Bool.false_ne_true hocc
      rw [if_neg h2]
      by_cases h3 : 50 < text.length
      · rw [if_pos h3]
        by_cases h4 : 10 < (pyWords text).length
        · rw [if_pos h4]
          have h5 : ¬ spamScan (pyWords text) (fun _ => 0) = true := by
            rw [spamScan_iff (pyWords text) (fun _ => 0)
              (by intro w; exact Nat.zero_le _)]
            rintro ⟨w, hw⟩
            have := hs w
            rw [wordCount] at this
            omega
          rw [if_neg h5]
        · rw [if_neg h4]
      · rw [if_neg h3]

/-- Witness for C3: concrete instances of all four parts — whitespace-only
text is safe, `"Damn!"` is rejected as inappropriate, an 11-fold repeated
word is reported as spam with the repetition count derivable, and
`"hello world"` is safe. -/
theorem c3_check_content_guardrails_witness :
    check_content_guardrails default_bad_words "  ".toList = (true, none)
    ∧ check_content_guardrails default_bad_words "Damn!".toList =
        (false, some "Your message contains inappropriate content. Please rephrase.")
    ∧ (50 < "spam spam spam spam spam spam spam spam spam spam spam".toList.length
        ∧ 10 < (pyWords "spam spam spam spam spam spam spam spam spam spam spam".toList).length
        ∧ ∃ w, 10 < wordCount w
            (pyWords "spam spam spam spam spam spam spam spam spam spam spam".toList))
    ∧ check_content_guardrails default_bad_words "hello world".toList = (true, none) := by
  refine ⟨?_, ?_, ?_, ?_⟩
  · exact (c3_check_content_guardrails default_bad_words "  ".toList).1
      (Or.inr (by decide))
  · exact (c3_check_content_guardrails default_bad_words "Damn!".toList).2.1
      ⟨"damn".toList, by decide, by decide, 'd', by decide, by decide⟩
  · exact (c3_check_content_guardrails default_bad_words
      "spam spam spam spam spam spam spam spam spam spam spam".toList).2.2.1 (by decide)
  · refine (c3_check_content_guardrails default_bad_words "hello world".toList).2.2.2
      (by decide) ?_
    intro w
    calc wordCount w (pyWords "hello world".toList)
        ≤ ((pyWords "hello world".toList).map (fun v => v.map Char.toLower)).length :=
          List.count_le_length _ _
      _ ≤ 10 := by decide

theorem backends_to_try_eq_spec (cfg : ChatConfig) :
    backends_to_try cfg = backends_to_try_spec cfg := by
  obtain ⟨b, ov, hc⟩ := cfg
  by_cases hb1 : b = "llama"
  · subst hb1
    cases ov <;> cases hc <;>
      simp [backends_to_try, backends_to_try_spec, effective_primary, backend_available]
  · by_cases hb2 : b = "openai"
    · subst hb2
      cases ov <;> cases hc <;>
        simp [backends_to_try, backends_to_try_spec, effective_primary, backend_available]
    · by_cases hb3 : b = "huggingface"
      · subst hb3
        cases ov <;> cases hc <;>
          simp [backends_to_try, backends_to_try_spec, effective_primary, backend_available]
      · cases ov <;> cases hc <;>
          simp [backends_to_try, backends_to_try_spec, effective_primary,
            backend_available, hb1, hb2, hb3]

theorem mem_backends_to_try_spec (cfg : ChatConfig) (b : String)
    (hb : b ∈ backends_to_try_spec cfg) :
    b = "llama" ∨ b = "openai" ∨ (b = "huggingface" ∧ cfg.hfConfigured = true) := by
  rw [backends_to_try_spec, List.mem_cons] at hb
  rcases hb with rfl | hb
  · rw [effective_primary]
    split
    · rename_i hcond
      rcases hcond.1 with hb | hb
      · right; left; exact hb
      · right; right
        refine ⟨hb, ?_⟩
        have := hcond.2
        rw [hb] at this
        simpa [backend_available] using this
    · left; rfl
  · rw [List.mem_filter] at hb
    obtain ⟨hmem, hcond⟩ := hb
    rw [Bool.and_eq_true] at hcond
    simp only [List.mem_cons, List.not_mem_nil, or_false] at hmem
    rcases hmem with rfl | rfl | rfl
    · left; rfl
    · right; left; rfl
    · right; right
      exact ⟨rfl, by simpa [backend_available] using hcond.2⟩

theorem try_backends_eq_first_truthy (cfg : ChatConfig)
    (gen : String → Option String) :
    ∀ (l : List String),
      (∀ b ∈ l, b = "llama" ∨ b = "openai" ∨ (b = "huggingface" ∧ cfg.hfConfigured = true)) →
      try_backends cfg gen l =
        (match first_truthy gen l with
         | some q => { response := some q.2, backend_used := some q.1, error := none }
         | none =>
           { response := none, backend_used := none,
             error := some "All chatbot backends are unavailable. Please check your configuration." }) := by
  intro l
  induction l with
  | nil => intro _; rfl
  | cons b rest ih =>
    intro hmem
    have hb := hmem b (List.mem_cons_self b rest)
    have hrest := fun x hx => hmem x (List.mem_cons_of_mem b hx)
    have hr : (if b = "llama" then gen "llama"
        else if b = "openai" then gen "openai"
        else if b = "huggingface" ∧ cfg.hfConfigured = true then gen "huggingface"
        else none) = gen b := by
      rcases hb with rfl | rfl | ⟨rfl, hcfg⟩
      · rw [if_pos rfl]
      · rw [if_neg (by decide), if_pos rfl]
      · rw [if_neg (by decide), if_neg (by decide), if_pos ⟨rfl, hcfg⟩]
    simp only [try_backends, first_truthy]
    rw [hr]
    cases hgb : gen b with
    | none => simp [truthyStr, ih hrest]
    | some s =>
      by_cases hs : s.isEmpty = true
      · simp [truthyStr, hs, ih hrest]
      · simp [truthyStr, hs]

/-- C4: on guardrail-safe input, the try-order is the configured primary
first and then the remaining backends in the fixed fallback order
`llama, openai, huggingface`, each fallback included only if
configured/valid, with an invalid primary (openai with an invalid key,
huggingface unconfigured, or an unrecognised name) replaced by `llama`;
the first backend returning a non-empty string determines `backend_used`;
and when every backend in the try-order returns nothing the result is the
fixed unavailability record. -/
theorem c4_generate_chatbot_response (cfg : ChatConfig)
    (gen : String → Option String) (msg : List Char)
    (hsafe : (check_content_guardrails default_bad_words msg).1 = true) :
    backends_to_try cfg = backends_to_try_spec cfg
    ∧ generate_chatbot_response cfg default_bad_words gen msg =
      (match first_truthy gen (backends_to_try_spec cfg) with
       | some q => { response := some q.2, backend_used := some q.1, error := none }
       | none =>
         { response := none, backend_used := none,
           error := some "All chatbot backends are unavailable. Please check your configuration." }) := by
  refine ⟨backends_to_try_eq_spec cfg, ?_⟩
  rw [generate_chatbot_response]
  rw [if_neg (by rw [hsafe]; exact Bool.true_eq_false ▸ (by simp))]
  rw [backends_to_try_eq_spec cfg]
  exact try_backends_eq_first_truthy cfg gen (backends_to_try_spec cfg)
    (mem_backends_to_try_spec cfg)

/-- Witness for C4: with `openai` selected as primary but its key invalid
and Hugging Face configured, the try-order is `llama, huggingface`; with
all generators failing, the unavailability record is returned. -/
theorem c4_generate_chatbot_response_witness :
    backends_to_try ⟨"openai", false, true⟩ = ["llama", "huggingface"]
    ∧ generate_chatbot_response ⟨"openai", false, true⟩ default_bad_words
        (fun _ => none) "hello".toList =
      { response := none, backend_used := none,
        error := some "All chatbot backends are unavailable. Please check your configuration." } := by
  have h := c4_generate_chatbot_response ⟨"openai", false, true⟩ (fun _ => none)
    "hello".toList (by decide)
  exact ⟨by rw [h.1]; rfl, by rw [h.2]; rfl⟩

/-- Counterexample for C6: with five embeddings the code's candidate range
`range(2, min(6, n + 1)) = [2, 3, 4, 5]` includes the segment count itself,
while the claim's half-open range `[2, min(6, n))` stops at `[2, 3, 4]`
(and with two embeddings the code tries `[2]` where the claim's range is
empty). -/
theorem c6_counterexample :
    auto_candidates 5 = [2, 3, 4, 5]
    ∧ auto_candidates_spec 5 = [2, 3, 4]
    ∧ auto_candidates 5 ≠ auto_candidates_spec 5
    ∧ auto_candidates 2 = [2]
    ∧ auto_candidates_spec 2 = [] := by
  refine ⟨by decide, by decide, by decide, by decide, by decide⟩

theorem auto_detect_go_none (score : ℕ → Option ℚ) :
    ∀ (l : List ℕ) (best : ℚ × ℕ), (∀ c ∈ l, score c = none) →
      auto_detect_go score l best = best := by
  intro l
  induction l with
  | nil => intro best _; rfl
  | cons k ks ih =>
    intro best hnone
    rw [auto_detect_go, hnone k (List.mem_cons_self k ks)]
    exact ih best (fun c hc => hnone c (List.mem_cons_of_mem k hc))

theorem auto_detect_go_keep (score : ℕ → Option ℚ) :
    ∀ (l : List ℕ) (best : ℚ × ℕ),
      (∀ c s', c ∈ l → score c = some s' → ¬ best.1 < s') →
      auto_detect_go score l best = best := by
  intro l
  induction l with
  | nil => intro best _; rfl
  | cons k ks ih =>
    intro best hsmall
    rw [auto_detect_go]
    cases hk : score k with
    | none => exact ih best (fun c s' hc hs => hsmall c s' (List.mem_cons_of_mem k hc) hs)
    | some sk =>
      dsimp only
      rw [if_neg (hsmall k sk (List.mem_cons_self k ks) hk)]
      exact ih best (fun c s' hc hs => hsmall c s' (List.mem_cons_of_mem k hc) hs)

theorem auto_detect_go_max (score : ℕ → Option ℚ) :
    ∀ (l : List ℕ) (best : ℚ × ℕ) (c : ℕ) (s : ℚ),
      c ∈ l → score c = some s → best.1 < s →
      (∀ c' s', c' ∈ l → c' ≠ c → score c' = some s' → s' < s) →
      (auto_detect_go score l best).2 = c := by
  intro l
  induction l with
  | nil => intro best c s hc; exact absurd hc (List.not_mem_nil c)
  | cons k ks ih =>
    intro best c s hc hsc hlt hdom
    rw [auto_detect_go]
    by_cases hkc : k = c
    · subst hkc
      rw [hsc]
      dsimp only
      rw [if_pos hlt]
      have hkeep : auto_detect_go score ks (s, k) = (s, k) := by
        apply auto_detect_go_keep
        intro c' s' hc' hs'
        by_cases hc'k : c' = k
        · subst hc'k
          rw [hsc] at hs'
          obtain rfl := Option.some.inj hs'
          exact lt_irrefl _
        · exact not_lt_of_lt (hdom c' s' (List.mem_cons_of_mem k hc') hc'k hs')
      rw [hkeep]
    · have hcks : c ∈ ks := by
        rcases List.mem_cons.mp hc with rfl | h
        · exact absurd rfl hkc
        · exact h
      have hdom' : ∀ c' s', c' ∈ ks → c' ≠ c → score c' = some s' → s' < s :=
        fun c' s' hc' => hdom c' s' (List.mem_cons_of_mem k hc')
      cases hk : score k with
      | none => exact ih best c s hcks hsc hlt hdom'
      | some sk =>
        dsimp only
        have hsk : sk < s := hdom k sk (List.mem_cons_self k ks) hkc hk
        by_cases hbk : best.1 < sk
        · rw [if_pos hbk]
          exact ih (sk, k) c s hcks hsc hsk hdom'
        · rw [if_neg hbk]
          exact ih best c s hcks hsc hlt hdom'

/-- C6 (amended): with no supplied speaker count, the auto-detection loop
tries every candidate cluster count in the half-open range from 2 up to
`min(6, number_of_segments + 1)` — i.e. candidates 2 through
`min(5, number_of_segments)`, never more candidates than segments; a
candidate whose clustering/scoring fails (`score = none`) is skipped (all
failing leaves the default of 2); and a candidate holding the strictly
highest silhouette score (above the initial `-1`) is kept. -/
theorem c6_auto_detect_speakers (numEmbeddings : ℕ) (score : ℕ → Option ℚ) :
    (∀ m, m ∈ auto_candidates numEmbeddings ↔ 2 ≤ m ∧ m ≤ min 5 numEmbeddings)
    ∧ ((∀ c ∈ auto_candidates numEmbeddings, score c = none) →
        auto_detect_speakers numEmbeddings score = 2)
    ∧ (∀ c s, c ∈ auto_candidates numEmbeddings → score c = some s → -1 < s →
        (∀ c' s', c' ∈ auto_candidates numEmbeddings → c' ≠ c →
          score c' = some s' → s' < s) →
        auto_detect_speakers numEmbeddings score = c) := by
  refine ⟨?_, ?_, ?_⟩
  · intro m
    rw [auto_candidates, List.mem_range'_1]
    omega
  · intro hnone
    rw [auto_detect_speakers, auto_detect_go_none score _ _ hnone]
  · intro c s hc hsc hlt hdom
    rw [auto_detect_speakers]
    exact auto_detect_go_max score _ (-1, 2) c s hc hsc hlt hdom

/-- Witness for C6: with ten embeddings and a score oracle succeeding only
at candidate 4, the loop returns 4. -/
theorem c6_auto_detect_speakers_witness :
    auto_detect_speakers 10 (fun k => if k = 4 then some 1 else none) = 4 := by
  refine (c6_auto_detect_speakers 10 (fun k => if k = 4 then some 1 else none)).2.2
    4 1 (by decide) (by simp) (by norm_num) ?_
  intro c' s' _ hne hs'
  rw [if_neg hne] at hs'
  exact absurd hs' (by simp)

/-- Counterexample for C5: at the default parameters the code closes a
speech run after `int(100 / 30) = 3` consecutive silent frames, not after
the ceiling `⌈100 / 30⌉ = 4` the claim states: on `exFrames` the code
yields two segments where the claim's ceiling-threshold walk yields one. -/
theorem c5_counterexample :
    segment_audio_vad_core 30 (1 / 100) 250 100 exFrames (81 / 100) =
      [(0, 36 / 100), (39 / 100, 75 / 100)]
    ∧ segment_audio_vad_spec_ceil 30 (1 / 100) 250 100 exFrames (81 / 100) =
      [(0, 78 / 100)]
    ∧ segment_audio_vad_core 30 (1 / 100) 250 100 exFrames (81 / 100) ≠
      segment_audio_vad_spec_ceil 30 (1 / 100) 250 100 exFrames (81 / 100) := by
  refine ⟨?_, ?_, ?_⟩ <;>
    norm_num [segment_audio_vad_core, segment_audio_vad_spec_ceil,
      detect_speech_segments, vad_walk, vad_step, vadInit, exFrames]

theorem vad_step_segs_inv (mfs : ℕ) (msp thr : ℚ) (st : VadState) (f : ℚ × ℚ)
    (hinv : ∀ p ∈ st.segs, msp / 1000 ≤ p.2 - p.1) :
    ∀ p ∈ (vad_step mfs msp thr st f).segs, msp / 1000 ≤ p.2 - p.1 := by
  intro p hp
  rw [vad_step] at hp
  by_cases h1 : thr < f.2
  · rw [if_pos h1] at hp
    exact hinv p hp
  · rw [if_neg h1] at hp
    by_cases h2 : st.inSpeech = true
    · rw [if_pos h2] at hp
      by_cases h3 : mfs ≤ st.silenceCount + 1
      · rw [if_pos h3] at hp
        simp only at hp
        cases hss : st.speechStart with
        | none => rw [hss] at hp; exact hinv p hp
        | some s =>
          rw [hss] at hp
          simp only at hp
          by_cases h4 : msp / 1000 ≤ f.1 - s
          · rw [if_pos h4] at hp
            rcases List.mem_append.mp hp with hp | hp
            · exact hinv p hp
            · obtain rfl := List.mem_singleton.mp hp
              exact h4
          · rw [if_neg h4] at hp
            exact hinv p hp
      · rw [if_neg h3] at hp
        exact hinv p hp
    · rw [if_neg h2] at hp
      exact hinv p hp

theorem vad_walk_segs_inv (mfs : ℕ) (msp thr : ℚ) :
    ∀ (frames : List (ℚ × ℚ)) (st : VadState),
      (∀ p ∈ st.segs, msp / 1000 ≤ p.2 - p.1) →
      ∀ p ∈ (frames.foldl (vad_step mfs msp thr) st).segs, msp / 1000 ≤ p.2 - p.1 := by
  intro frames
  induction frames with
  | nil => intro st hinv; exact hinv
  | cons f fs ih =>
    intro st hinv
    rw [List.foldl_cons]
    exact ih _ (vad_step_segs_inv mfs msp thr st f hinv)

theorem vad_step_start_inv (mfs : ℕ) (msp thr : ℚ) (st : VadState) (f : ℚ × ℚ)
    (hinv : st.inSpeech = true → st.speechStart.isSome = true) :
    (vad_step mfs msp thr st f).inSpeech = true →
      (vad_step mfs msp thr st f).speechStart.isSome = true := by
  intro hsp
  rw [vad_step] at hsp ⊢
  by_cases h1 : thr < f.2
  · rw [if_pos h1] at hsp ⊢
    simp only
    cases hin : st.inSpeech with
    | true => rw [if_pos rfl]; exact hinv hin
    | false => rw [if_neg (by simp)]; rfl
  · rw [if_neg h1] at hsp ⊢
    by_cases h2 : st.inSpeech = true
    · rw [if_pos h2] at hsp ⊢
      by_cases h3 : mfs ≤ st.silenceCount + 1
      · rw [if_pos h3] at hsp
        exact absurd hsp (by simp)
      · rw [if_neg h3] at hsp ⊢
        exact hinv h2
    · rw [if_neg h2] at hsp ⊢
      exact hinv hsp

theorem vad_walk_start_inv (mfs : ℕ) (msp thr : ℚ) :
    ∀ (frames : List (ℚ × ℚ)) (st : VadState),
      (st.inSpeech = true → st.speechStart.isSome = true) →
      (frames.foldl (vad_step mfs msp thr) st).inSpeech = true →
        (frames.foldl (vad_step mfs msp thr) st).speechStart.isSome = true := by
  intro frames
  induction frames with
  | nil => intro st hinv; exact hinv
  | cons f fs ih =>
    intro st hinv
    rw [List.foldl_cons]
    exact ih _ (vad_step_start_inv mfs msp thr st f hinv)

/-- C5 (amended): inside a speech run the segment is closed only once the
consecutive-silent-frame counter reaches
`int(min_silence_duration_ms / frame_duration_ms)` — truncating (floor)
division, 3 frames for the default 100 ms silence with 30 ms frames (not
the ceiling, 4); with a smaller count the run stays open and nothing is
emitted; a closed segment is emitted only if its duration is at least
`min_speech_duration_ms`; and when speech is still open at end-of-file a
final segment ending at the file's total duration is emitted regardless
of the minimum-duration check. -/
theorem c5_segment_audio_vad (frameDurationMs : ℕ) (energyThreshold : ℚ)
    (minSpeechDurationMs minSilenceDurationMs : ℕ) (frames : List (ℚ × ℚ))
    (duration : ℚ) :
    segment_audio_vad_core frameDurationMs energyThreshold minSpeechDurationMs
        minSilenceDurationMs frames duration =
      detect_speech_segments (minSilenceDurationMs / frameDurationMs)
        (minSpeechDurationMs : ℚ) energyThreshold frames duration
    ∧ (100 : ℕ) / 30 = 3
    ∧ (∀ (mfs : ℕ) (msp : ℚ) (st : VadState) (t e : ℚ), e ≤ energyThreshold →
        st.inSpeech = true → st.silenceCount + 1 < mfs →
        (vad_step mfs msp energyThreshold st (t, e)).inSpeech = true
        ∧ (vad_step mfs msp energyThreshold st (t, e)).segs = st.segs)
    ∧ (∀ (mfs : ℕ) (msp : ℚ) (st : VadState) (t e : ℚ), e ≤ energyThreshold →
        st.inSpeech = true → mfs ≤ st.silenceCount + 1 →
        (vad_step mfs msp energyThreshold st (t, e)).inSpeech = false)
    ∧ (∀ p ∈ detect_speech_segments (minSilenceDurationMs / frameDurationMs)
          (minSpeechDurationMs : ℚ) energyThreshold frames duration,
        p.2 = duration ∨ (minSpeechDurationMs : ℚ) / 1000 ≤ p.2 - p.1)
    ∧ ((vad_walk (minSilenceDurationMs / frameDurationMs) (minSpeechDurationMs : ℚ)
          energyThreshold frames).inSpeech = true →
        ∃ s, (vad_walk (minSilenceDurationMs / frameDurationMs)
            (minSpeechDurationMs : ℚ) energyThreshold frames).speechStart = some s
          ∧ detect_speech_segments (minSilenceDurationMs / frameDurationMs)
              (minSpeechDurationMs : ℚ) energyThreshold frames duration =
            (vad_walk (minSilenceDurationMs / frameDurationMs)
                (minSpeechDurationMs : ℚ) energyThreshold frames).segs
              ++ [(s, duration)]) := by
  refine ⟨rfl, rfl, ?_, ?_, ?_, ?_⟩
  · intro mfs msp st t e he hin hcnt
    rw [vad_step]
    rw [if_neg (by simpa using not_lt.mpr he), if_pos hin, if_neg (by omega)]
    exact ⟨hin, rfl⟩
  · intro mfs msp st t e he hin hcnt
    rw [vad_step]
    rw [if_neg (by simpa using not_lt.mpr he), if_pos hin, if_pos hcnt]
  · intro p hp
    rw [detect_speech_segments] at hp
    rcases List.mem_append.mp hp with hp | hp
    · right
      exact vad_walk_segs_inv _ _ _ frames vadInit
        (by intro q hq; simp [vadInit] at hq) p hp
    · left
      rcases hsp : (vad_walk (minSilenceDurationMs / frameDurationMs)
          (minSpeechDurationMs : ℚ) energyThreshold frames).inSpeech with _ | _
      · rw [hsp] at hp
        simp at hp
      · rw [hsp] at hp
        cases hst : (vad_walk (minSilenceDurationMs / frameDurationMs)
            (minSpeechDurationMs : ℚ) energyThreshold frames).speechStart with
        | none => rw [hst] at hp; simp at hp
        | some s =>
          rw [hst] at hp
          simp only [List.mem_singleton] at hp
          rw [hp]
  · intro hsp
    rw [vad_walk] at hsp
    have hsome := vad_walk_start_inv _ _ _ frames vadInit
      (by intro h; simp [vadInit] at h) hsp
    obtain ⟨s, hs⟩ := Option.isSome_iff_exists.mp hsome
    refine ⟨s, by rw [vad_walk]; exact hs, ?_⟩
    rw [detect_speech_segments, vad_walk, hsp, hs]

/-- Witness for C5: at the default silence threshold of 3 frames, a silent
frame arriving with the counter at 1 keeps the speech run open with no
segment emitted, and a silent frame arriving with the counter at 2 closes
the run. -/
theorem c5_segment_audio_vad_witness :
    ((vad_step 3 250 (1 / 100) ⟨true, some 0, 1, 4, []⟩ (12 / 100, 0)).inSpeech = true
      ∧ (vad_step 3 250 (1 / 100) ⟨true, some 0, 1, 4, []⟩ (12 / 100, 0)).segs = [])
    ∧ (vad_step 3 250 (1 / 100) ⟨true, some 0, 2, 4, []⟩ (12 / 100, 0)).inSpeech = false := by
  constructor
  · exact (c5_segment_audio_vad 30 (1 / 100) 250 100 [] 0).2.2.1 3 250
      ⟨true, some 0, 1, 4, []⟩ (12 / 100) 0 (by norm_num) rfl (by norm_num)
  · exact (c5_segment_audio_vad 30 (1 / 100) 250 100 [] 0).2.2.2.1 3 250
      ⟨true, some 0, 2, 4, []⟩ (12 / 100) 0 (by norm_num) rfl (by norm_num)

theorem foldl_min_spec : ∀ (xs : List ℚ) (x : ℚ),
    (xs.foldl min x ∈ x :: xs) ∧ ∀ t ∈ x :: xs, xs.foldl min x ≤ t := by
  intro xs
  induction xs with
  | nil =>
    intro x
    refine ⟨List.mem_singleton.mpr rfl, ?_⟩
    intro t ht
    obtain rfl := List.mem_singleton.mp ht
    exact le_refl _
  | cons y ys ih =>
    intro x
    rw [List.foldl_cons]
    obtain ⟨ihmem, ihle⟩ := ih (min x y)
    constructor
    · rcases List.mem_cons.mp ihmem with h | h
      · rcases min_choice x y with hc | hc
        · rw [h, hc]; exact List.mem_cons_self x (y :: ys)
        · rw [h, hc]
          exact List.mem_cons_of_mem x (List.mem_cons_self y ys)
      · exact List.mem_cons_of_mem x (List.mem_cons_of_mem y h)
    · intro t ht
      rcases List.mem_cons.mp ht with rfl | ht
      · exact le_trans (ihle (min _ y) (List.mem_cons_self _ _)) (min_le_left _ y)
      · rcases List.mem_cons.mp ht with rfl | ht
        · exact le_trans (ihle (min x _) (List.mem_cons_self _ _)) (min_le_right x _)
        · exact ihle t (List.mem_cons_of_mem _ ht)

theorem foldl_max_spec : ∀ (xs : List ℚ) (x : ℚ),
    (xs.foldl max x ∈ x :: xs) ∧ ∀ t ∈ x :: xs, t ≤ xs.foldl max x := by
  intro xs
  induction xs with
  | nil =>
    intro x
    refine ⟨List.mem_singleton.mpr rfl, ?_⟩
    intro t ht
    obtain rfl := List.mem_singleton.mp ht
    exact le_refl _
  | cons y ys ih =>
    intro x
    rw [List.foldl_cons]
    obtain ⟨ihmem, ihle⟩ := ih (max x y)
    constructor
    · rcases List.mem_cons.mp ihmem with h | h
      · rcases max_choice x y with hc | hc
        · rw [h, hc]; exact List.mem_cons_self x (y :: ys)
        · rw [h, hc]
          exact List.mem_cons_of_mem x (List.mem_cons_self y ys)
      · exact List.mem_cons_of_mem x (List.mem_cons_of_mem y h)
    · intro t ht
      rcases List.mem_cons.mp ht with rfl | ht
      · exact le_trans (le_max_left _ y) (ihle (max _ y) (List.mem_cons_self _ _))
      · rcases List.mem_cons.mp ht with rfl | ht
        · exact le_trans (le_max_right x _) (ihle (max x _) (List.mem_cons_self _ _))
        · exact ihle t (List.mem_cons_of_mem _ ht)

theorem pyMin_spec (l : List ℚ) (h : l ≠ []) :
    pyMin l ∈ l ∧ ∀ t ∈ l, pyMin l ≤ t := by
  cases l with
  | nil => exact absurd rfl h
  | cons x xs => exact ⟨(foldl_min_spec xs x).1, (foldl_min_spec xs x).2⟩

theorem pyMax_spec (l : List ℚ) (h : l ≠ []) :
    pyMax l ∈ l ∧ ∀ t ∈ l, t ≤ pyMax l := by
  cases l with
  | nil => exact absurd rfl h
  | cons x xs => exact ⟨(foldl_max_spec xs x).1, (foldl_max_spec xs x).2⟩

theorem nearest_rank_mem (l : List ℚ) (h : l ≠ []) (p : ℕ) :
    nearest_rank l p ∈ l := by
  rw [nearest_rank, if_neg (by simpa using h)]
  have hperm : List.Perm (List.insertionSort (· ≤ ·) l) l := List.perm_insertionSort _ l
  have hlen : (List.insertionSort (· ≤ ·) l).length = l.length := hperm.length_eq
  have hpos : 0 < l.length := List.length_pos.mpr h
  have hidx : min (l.length * p / 100) (l.length - 1) <
      (List.insertionSort (· ≤ ·) l).length := by
    rw [hlen]; omega
  rw [List.getD_eq_getElem _ _ hidx]
  exact hperm.mem_iff.mp (List.getElem_mem _)

/-- Counterexample for C7: a category holding one failed test reports
`total_tests = 0` (the zero-passed early return zeroes the counts too,
although the category records one test); and on passed durations `[1, 3]`
the stored deviation is the sample variance 2 (`statistics.stdev`,
denominator `n - 1`), not the population variance 1 the claim names —
the real square root is injective on nonnegative rationals, so the
standard deviations differ exactly when these variances do. -/
theorem c7_counterexample :
    (calculate_metrics [⟨"t1", "f", "failed", 5, "c"⟩] "c").total_tests = 0
    ∧ ([(⟨"t1", "f", "failed", 5, "c"⟩ : TestResultR)].filter
        (fun r => r.category == "c")).length = 1
    ∧ (calculate_metrics [⟨"a", "f", "passed", 1, "c"⟩, ⟨"b", "f", "passed", 3, "c"⟩]
        "c").std_dev_sq_ms = 2
    ∧ population_variance [1, 3] = 1
    ∧ sample_variance [1, 3] ≠ population_variance [1, 3] := by
  refine ⟨by decide, by decide, ?_, ?_, ?_⟩ <;>
    norm_num [calculate_metrics, sample_variance, population_variance, pyMean,
      zeroMetrics, List.filter]

/-- C7 (amended): when a category has at least one passed test, the
counts are computed over all tests recorded in that category while the
statistical figures are computed only over the passed tests' durations,
with the standard deviation being the sample standard deviation
(denominator `n - 1`, zero for a single sample) and the percentiles by
nearest rank (hence attained by an actual duration); a category with
zero passed tests yields the all-zero record — including zero counts —
without error. -/
theorem c7_calculate_metrics (results : List TestResultR) (category : String) :
    ((results.filter (fun r => r.category == category && r.status == "passed")) ≠ [] →
      (calculate_metrics results category).total_tests =
        (results.filter (fun r => r.category == category)).length
      ∧ (calculate_metrics results category).passed =
        ((results.filter (fun r => r.category == category)).filter
          (fun r => r.status == "passed")).length
      ∧ (calculate_metrics results category).failed =
        ((results.filter (fun r => r.category == category)).filter
          (fun r => r.status == "failed")).length
      ∧ (calculate_metrics results category).skipped =
        ((results.filter (fun r => r.category == category)).filter
          (fun r => r.status == "skipped")).length
      ∧ (calculate_metrics results category).avg_time_ms *
          ((results.filter (fun r => r.category == category && r.status == "passed")).map
            (fun r => r.duration_ms)).length =
        ((results.filter (fun r => r.category == category && r.status == "passed")).map
          (fun r => r.duration_ms)).sum
      ∧ ((calculate_metrics results category).min_time_ms ∈
          (results.filter (fun r => r.category == category && r.status == "passed")).map
            (fun r => r.duration_ms)
        ∧ ∀ t ∈ (results.filter (fun r => r.category == category && r.status == "passed")).map
            (fun r => r.duration_ms),
          (calculate_metrics results category).min_time_ms ≤ t)
      ∧ ((calculate_metrics results category).max_time_ms ∈
          (results.filter (fun r => r.category == category && r.status == "passed")).map
            (fun r => r.duration_ms)
        ∧ ∀ t ∈ (results.filter (fun r => r.category == category && r.status == "passed")).map
            (fun r => r.duration_ms),
          t ≤ (calculate_metrics results category).max_time_ms)
      ∧ (calculate_metrics results category).median_time_ms =
          pyMedian ((results.filter (fun r => r.category == category && r.status == "passed")).map
            (fun r => r.duration_ms))
      ∧ (calculate_metrics results category).std_dev_sq_ms =
          sample_variance ((results.filter (fun r => r.category == category && r.status == "passed")).map
            (fun r => r.duration_ms))
      ∧ ((calculate_metrics results category).p95_time_ms =
          nearest_rank ((results.filter (fun r => r.category == category && r.status == "passed")).map
            (fun r => r.duration_ms)) 95
        ∧ (calculate_metrics results category).p95_time_ms ∈
          (results.filter (fun r => r.category == category && r.status == "passed")).map
            (fun r => r.duration_ms))
      ∧ ((calculate_metrics results category).p99_time_ms =
          nearest_rank ((results.filter (fun r => r.category == category && r.status == "passed")).map
            (fun r => r.duration_ms)) 99
        ∧ (calculate_metrics results category).p99_time_ms ∈
          (results.filter (fun r => r.category == category && r.status == "passed")).map
            (fun r => r.duration_ms)))
    ∧ ((results.filter (fun r => r.category == category && r.status == "passed")) = [] →
      calculate_metrics results category = zeroMetrics category) := by
  constructor
  · intro hne
    have hemp : (results.filter
        (fun r => r.category == category && r.status == "passed")).isEmpty = false := by
      simpa using hne
    have htne : (results.filter
        (fun r => r.category == category && r.status == "passed")).map
          (fun r => r.duration_ms) ≠ [] := by
      simpa using hne
    rw [calculate_metrics]
    rw [if_neg (by simp [hemp])]
    refine ⟨rfl, rfl, rfl, rfl, ?_, ?_, ?_, rfl, rfl, ⟨rfl, ?_⟩, ⟨rfl, ?_⟩⟩
    · have hlen : ((results.filter
          (fun r => r.category == category && r.status == "passed")).map
            (fun r => r.duration_ms)).length ≠ 0 := by
        simpa [List.length_eq_zero] using htne
      simp only [pyMean]
      rw [div_mul_cancel₀]
      exact Nat.cast_ne_zero.mpr hlen
    · exact pyMin_spec _ htne
    · exact pyMax_spec _ htne
    · exact nearest_rank_mem _ htne 95
    · exact nearest_rank_mem _ htne 99
  · intro hemp
    rw [calculate_metrics, if_pos (by simp [hemp])]

/-- Witness for C7: on one passed and one failed test in category `"c"`,
the counts cover both tests while the mean covers only the passed
duration. -/
theorem c7_calculate_metrics_witness :
    (calculate_metrics [⟨"a", "f", "passed", 1, "c"⟩, ⟨"b", "f", "failed", 2, "c"⟩]
      "c").total_tests = 2
    ∧ (calculate_metrics [⟨"a", "f", "passed", 1, "c"⟩, ⟨"b", "f", "failed", 2, "c"⟩]
      "c").passed = 1 := by
  have h := (c7_calculate_metrics
    [⟨"a", "f", "passed", 1, "c"⟩, ⟨"b", "f", "failed", 2, "c"⟩] "c").1 (by decide)
  exact ⟨h.1.trans (by decide), h.2.1.trans (by decide)⟩

theorem chatbot_frames_shape (cb : Except String ChatResult) (t : String) :
    ∃ r b e, chatbot_frames cb t = [.chatbotResponse r b e t] := by
  cases cb with
  | error e => exact ⟨none, some "error", some ("Chatbot error: " ++ e), rfl⟩
  | ok res =>
    rw [chatbot_frames]
    by_cases h1 : truthyStr res.error = true
    · rw [if_pos h1]
      exact ⟨none, res.backend_used, res.error, rfl⟩
    · rw [if_neg h1]
      by_cases h2 : truthyStr res.response = true
      · rw [if_pos h2]
        exact ⟨res.response, res.backend_used, none, rfl⟩
      · rw [if_neg h2]
        exact ⟨none, if truthyStr res.backend_used then res.backend_used
          else some "unknown", res.error, rfl⟩

/-- Counterexample for C2: an empty buffer yields an `error` frame (no
`chatbot_response` at all) before `segment_processed`, and so does a
failing transcription — contradicting the claim that the terminal outcome
frame is of type `chatbot_response` for every `segment_end`, including
the empty-buffer and failed-transcription cases. -/
theorem c2_counterexample :
    handle_segment_end [] none
        ⟨true, .ok "hello", .ok (), .ok ⟨some "hi", some "llama", none⟩⟩ =
      [.errorFrame "No audio data received before segment_end", .segmentProcessed]
    ∧ handle_segment_end [7] (some "s")
        ⟨true, .error "boom", .ok (), .ok ⟨some "hi", some "llama", none⟩⟩ =
      [.errorFrame "Transcription error: boom", .segmentProcessed]
    ∧ (handle_segment_end [] none
        ⟨true, .ok "hello", .ok (), .ok ⟨some "hi", some "llama", none⟩⟩).countP
          is_chatbot_response = 0
    ∧ (handle_segment_end [7] (some "s")
        ⟨true, .error "boom", .ok (), .ok ⟨some "hi", some "llama", none⟩⟩).countP
          is_chatbot_response = 0 := by
  refine ⟨by decide, by decide, by decide, by decide⟩

/-- C2 (amended): for every `segment_end`, the gateway sends exactly one
terminal outcome frame followed by exactly one `segment_processed` frame,
in that order; the outcome frame is a `chatbot_response` exactly when the
buffer is non-empty, the model is loaded, transcription succeeds, and a
required transcript-log write (attempted only for a non-empty
transcription with a session id set) succeeds; in every other case —
including an empty buffer and a failed transcription — the outcome frame
is an `error` frame. -/
theorem c2_handle_segment_end (buffer : List ℕ) (sessionId : Option String)
    (env : SegmentEndEnv) :
    ∃ o, handle_segment_end buffer sessionId env = [o, .segmentProcessed]
    ∧ (is_chatbot_response o = true ↔
        (buffer ≠ [] ∧ env.modelLoaded = true ∧ ∃ raw, env.transcribe = .ok raw ∧
          ((¬(trimWs raw.toList).isEmpty = true ∧ sessionId.isSome = true) →
            env.logWrite = .ok ())))
    ∧ (is_chatbot_response o = true ∨ ∃ m, o = .errorFrame m) := by
  rw [handle_segment_end]
  cases buffer with
  | nil =>
    refine ⟨.errorFrame "No audio data received before segment_end", rfl, ?_, ?_⟩
    · simp [is_chatbot_response]
    · exact Or.inr ⟨_, rfl⟩
  | cons x xs =>
    rw [if_pos (by simp), if_neg (by simp)]
    cases hml : env.modelLoaded with
    | false =>
      rw [if_pos rfl]
      refine ⟨.errorFrame "Whisper model not initialized", rfl, ?_, Or.inr ⟨_, rfl⟩⟩
      simp [is_chatbot_response, hml]
    | true =>
      rw [if_neg (by simp)]
      cases htr : env.transcribe with
      | error e =>
        refine ⟨.errorFrame (rewrite_transcription_error e), rfl, ?_, Or.inr ⟨_, rfl⟩⟩
        simp [is_chatbot_response, htr]
      | ok raw =>
        dsimp only
        by_cases hcond : (¬(trimWs raw.toList).isEmpty = true ∧ sessionId.isSome = true)
        · rw [if_pos hcond]
          cases hlw : env.logWrite with
          | error e =>
            refine ⟨.errorFrame (rewrite_transcription_error e), rfl, ?_, Or.inr ⟨_, rfl⟩⟩
            simp only [is_chatbot_response, Bool.false_eq_true, false_iff]
            rintro ⟨-, -, raw', hraw', himp⟩
            obtain rfl := Except.ok.inj hraw'
            cases himp hcond
          | ok u =>
            obtain ⟨r, b, e, hcf⟩ := chatbot_frames_shape env.chatbot ⟨trimWs raw.toList⟩
            rw [if_pos hcond.1, hcf]
            refine ⟨.chatbotResponse r b e ⟨trimWs raw.toList⟩, rfl, ?_, Or.inl rfl⟩
            simp [is_chatbot_response]
        · rw [if_neg hcond]
          by_cases hne : ¬((trimWs raw.toList).isEmpty = true)
          · obtain ⟨r, b, e, hcf⟩ := chatbot_frames_shape env.chatbot ⟨trimWs raw.toList⟩
            rw [if_pos hne, hcf]
            refine ⟨.chatbotResponse r b e ⟨trimWs raw.toList⟩, rfl, ?_, Or.inl rfl⟩
            exact iff_of_true rfl ⟨by simp, rfl, raw, rfl, fun hc => absurd hc hcond⟩
          · rw [if_neg hne]
            refine ⟨.chatbotResponse none (some "none")
              (some "No speech detected in audio segment") "", rfl, ?_, Or.inl rfl⟩
            exact iff_of_true rfl ⟨by simp, rfl, raw, rfl, fun hc => absurd hc hcond⟩

/-- Witness for C2 (amended): instantiating the theorem at a concrete
successful environment, the handler emits exactly two frames. -/
theorem c2_handle_segment_end_witness :
    (handle_segment_end [1] (some "s")
      ⟨true, .ok "hi", .ok (), .ok ⟨some "r", some "llama", none⟩⟩).length = 2 := by
  obtain ⟨o, ho, -, -⟩ := c2_handle_segment_end [1] (some "s")
    ⟨true, .ok "hi", .ok (), .ok ⟨some "r", some "llama", none⟩⟩
  rw [ho]
  rfl
